import Mathlib

/-! Verification of the core request/reply pipeline of the `breadx` X11 client
library against its natural-language specification.

The definitions below are a shallow embedding, translated directly from the
Rust source:

* `src/xid.rs`                      — XID allocator (`XidGeneratorUnsync::next`,
                                      `XidGeneratorSync::next`)
* `src/display/output.rs`           — request encoder (`encode_request`)
* `src/display/input.rs`            — inbound dispatcher (`process_bytes`,
                                      `fix_glx_workaround`, `wait`,
                                      `additional_bytes`, `expect_reply`,
                                      `filter_into_special_event`)
* `src/display/variant/unsync.rs`   — single-threaded variant state
* `src/display/variant/sync.rs`     — thread-safe variant state

Machine integers (`u8`, `u16`, `u32`, `usize`) are modelled as `Nat` with
explicit `% 2^w` at the points where the Rust code wraps.  Byte buffers
(`TinyVec<[u8; 32]>`, `&[u8]`) are `List Nat`.  Multi-byte reads and writes
(`u16::from_ne_bytes`, `u32::from_ne_bytes`, `to_ne_bytes`) are modelled
little-endian, the native byte order on every platform the crate targets.
Hash maps (`hashbrown::HashMap`, `DashMap`) are association lists whose
`insert` replaces the previous binding of the key.
-/

namespace BreadX

/-- The constant `2^32`, the modulus of all `u32` arithmetic. -/
def u32Mod : Nat := 4294967296

/-- The constant `2^16`, the modulus of all `u16` arithmetic. -/
def u16Mod : Nat := 65536

/-- Source `u32::wrapping_sub` on `Nat` representatives of `u32` values. -/
def wsub32 (a b : Nat) : Nat := (a + (u32Mod - b % u32Mod)) % u32Mod

/-- Source `u32::wrapping_add` on `Nat` representatives of `u32` values. -/
def wadd32 (a b : Nat) : Nat := (a + b) % u32Mod

/-- Source `u32::wrapping_neg`: `(2^32 - x) mod 2^32`. -/
def wneg32 (x : Nat) : Nat := (u32Mod - x % u32Mod) % u32Mod

/-! ## XID allocator (`src/xid.rs`)

`XidGeneratorUnsync` holds `last`, `max` (mutable cells), `inc`, `base`,
`mask`; all five are `u32`.  `XidGeneratorSync` holds the same data behind
atomics and its `next` performs the identical sequential algorithm, so both
share one functional model of the state. -/

structure XidGeneratorUnsync where
  last : Nat
  max : Nat
  inc : Nat
  base : Nat
  mask : Nat
deriving DecidableEq, Repr

/-- Constructor `XidGeneratorUnsync::new(base, mask)`:
`last = 0`, `max = 0`, `inc = mask & mask.wrapping_neg()` (the lowest set bit
of `mask`).  The `Default` derive produces the same state as `new 0 0`. -/
def XidGeneratorUnsync.new (base mask : Nat) : XidGeneratorUnsync :=
  { last := 0, max := 0, inc := mask &&& wneg32 mask, base := base, mask := mask }

/-- Outcome of one `next()` call: `assertFail` models the
`assert_eq!(last, max)` panicking, `exhausted` is a `None` return
("no more IDs"), `issued x` is `Some(x)`. -/
inductive NextOutcome where
  | assertFail : NextOutcome
  | exhausted : NextOutcome
  | issued : Nat → NextOutcome
deriving DecidableEq, Repr

/-- Source `XidGeneratorUnsync::next` (src/xid.rs lines 70-84), returning the outcome
together with the updated generator state:

```rust
if self.last.get() >= self.max.get().wrapping_sub(self.inc).wrapping_add(1) {
    assert_eq!(self.last.get(), self.max.get());
    if self.last.get() == 0 {
        self.max.set(self.mask);
        self.last.set(self.inc);
    } else {
        return None;
    }
} else {
    self.last.set(self.last.get().wrapping_add(self.inc));
}
Some(self.eval_in_place())   // eval_in_place() == last | base
```
-/
def XidGeneratorUnsync.next (g : XidGeneratorUnsync) :
    NextOutcome × XidGeneratorUnsync :=
  if g.last ≥ wadd32 (wsub32 g.max g.inc) 1 then
    if g.last = g.max then
      if g.last = 0 then
        let g' := { g with max := g.mask, last := g.inc }
        (NextOutcome.issued (g'.last ||| g'.base), g')
      else
        (NextOutcome.exhausted, g)
    else
      (NextOutcome.assertFail, g)
  else
    let g' := { g with last := wadd32 g.last g.inc }
    (NextOutcome.issued (g'.last ||| g'.base), g')

/-- Source `XidGeneratorSync::next` (src/xid.rs lines 116-133) performs, step for
step, the same loads/stores on `last` and `max`; as a sequential function of
the generator state it is the same algorithm. -/
def XidGeneratorSync.next (g : XidGeneratorUnsync) :
    NextOutcome × XidGeneratorUnsync :=
  XidGeneratorUnsync.next g

/-- Generator state after `n` calls to `next()`. -/
def XidGeneratorUnsync.iterate (g : XidGeneratorUnsync) : Nat → XidGeneratorUnsync
  | 0 => g
  | n + 1 => ((g.iterate n).next).2

/-- Outcome of the `(n+1)`-th call to `next()` (0-indexed). -/
def XidGeneratorUnsync.valAt (g : XidGeneratorUnsync) (n : Nat) : NextOutcome :=
  ((g.iterate n).next).1

/-- Source `UnsyncVariant::generate_xid` / `SyncVariant::generate_xid`:
`self.xid.next().ok_or(BreadError::NoXID)`, observed at the `(n+1)`-th call;
`none` models the assertion panic propagating out of `next`. -/
inductive GenerateXidOutcome where
  | panic : GenerateXidOutcome
  | noXid : GenerateXidOutcome
  | ok : Nat → GenerateXidOutcome
deriving DecidableEq, Repr

def generateXidAt (g : XidGeneratorUnsync) (n : Nat) : GenerateXidOutcome :=
  match g.valAt n with
  | NextOutcome.assertFail => GenerateXidOutcome.panic
  | NextOutcome.exhausted => GenerateXidOutcome.noXid
  | NextOutcome.issued x => GenerateXidOutcome.ok x

/-! ## Request encoder (`src/display/output.rs`)

A generated request type `R` exposes (generator contract, spec §6):
`OPCODE: u8`, `EXTENSION: Option<&'static str>`, `REPLY_EXPECTS_FDS: bool`,
the reply size `mem::size_of::<R::Reply>()`, `size() -> usize` and
`as_bytes(&mut [u8]) -> usize`.  A concrete request value is modelled by the
observable effect of `as_bytes` on the zero-initialised buffer of length
`size()`: the buffer contents afterwards (`wire`) and the returned
authoritative length (`len`). -/

structure Request where
  opcode : Nat
  extension : Option String
  replyExpectsFds : Bool
  replySize : Nat
  size : Nat
  wire : List Nat
  len : Nat
deriving DecidableEq, Repr

/-- Contract of the generator: `as_bytes` fills (part of) the buffer it was
handed and reports how many bytes it used. -/
def Request.WF (r : Request) : Prop :=
  r.wire.length = r.size ∧ r.len ≤ r.size

instance (r : Request) : Decidable r.WF := by
  unfold Request.WF
  infer_instance

/-- Source `RequestWorkaround` (src/display/mod.rs): either no workaround or the GLX
FbConfigs length bug marker. -/
inductive RequestWorkaround where
  | noneWorkaround : RequestWorkaround
  | glxFbconfigBug : RequestWorkaround
deriving DecidableEq, Repr

/-- Source `PendingRequestFlags`. -/
structure PendingRequestFlags where
  expects_fds : Bool
  discard_reply : Bool
  checked : Bool
  workaround : RequestWorkaround
deriving DecidableEq, Repr

/-- Little-endian `u32` read of `bytes[i..i+4]`, mirroring
`bytes.get(i..i+4)` followed by `u32::from_ne_bytes`: `none` when the slice
is out of range. -/
def readU32LE (bytes : List Nat) (i : Nat) : Option Nat :=
  if i + 4 ≤ bytes.length then
    some (bytes.getD i 0 + 256 * bytes.getD (i + 1) 0 +
      65536 * bytes.getD (i + 2) 0 + 16777216 * bytes.getD (i + 3) 0)
  else none

/-- Result of `encode_request`: the wire bytes, the computed
`PendingRequestFlags`, and whether a `PendingRequest` entry was inserted into
the pending table (`expect_reply` called). -/
structure EncodeResult where
  bytes : List Nat
  flags : PendingRequestFlags
  inserted : Bool
deriving DecidableEq, Repr

/-- Padding step: `if len % 4 != 0 { bytes.extend(zeros(4 - len % 4)) }`. -/
def padBytes (w : List Nat) (len : Nat) : List Nat :=
  if len % 4 = 0 then w else w ++ List.replicate (4 - len % 4) 0

/-- Padded length: `len += 4 - len % 4` when `len % 4 != 0`. -/
def padLen (len : Nat) : Nat :=
  if len % 4 = 0 then len else len + (4 - len % 4)

/-- Header opcode patch: core request writes `bytes[0] = OPCODE`; extension
request writes `bytes[0] = ext_opcode; bytes[1] = OPCODE`. -/
def patchOpcode (w : List Nat) (opcode : Nat) (extOp : Option Nat) :
    List Nat :=
  match extOp with
  | none => w.set 0 opcode
  | some e => (w.set 0 e).set 1 opcode

/-- Length patch: `bytes[2] = (len/4).to_ne_bytes()[0];
bytes[3] = (len/4).to_ne_bytes()[1]` (little-endian). -/
def patchLength (w : List Nat) (xlen : Nat) : List Nat :=
  (w.set 2 (xlen % 256)).set 3 (xlen / 256 % 256)

/-- The wire bytes produced by `encode_request`: pad, patch header, patch
length, then `bytes.truncate(len)`. -/
def encodeBytes (r : Request) (extOp : Option Nat) : List Nat :=
  (patchLength (patchOpcode (padBytes r.wire r.len) r.opcode extOp)
    (padLen r.len / 4)).take (padLen r.len)

/-- The source's GLX-workaround condition, the two match arms
`(Some("GLX"), 17, Some(0x10004)) | (Some("GLX"), 21, _)` over
`(R::EXTENSION, R::OPCODE, bytes.get(32..36) as u32)`, evaluated on the
truncated buffer. -/
def glxBugCondition (r : Request) (bytesF : List Nat) : Prop :=
  r.extension = some "GLX" ∧
    (r.opcode = 21 ∨ (r.opcode = 17 ∧ readU32LE bytesF 32 = some 0x10004))

instance (r : Request) (bytesF : List Nat) :
    Decidable (glxBugCondition r bytesF) := by
  unfold glxBugCondition
  infer_instance

/-- Source `Display::encode_request` (src/display/output.rs lines 37-120).

Steps, in source order: run `as_bytes` on the zeroed buffer (modelled by
`r.wire` / `r.len`); pad `len` to a multiple of 4 with zero bytes; patch the
header; store `len/4` little-endian into `bytes[2..4]`; truncate the buffer
to `len`; compute the flags, marking `GlxFbconfigBug` exactly when
`glxBugCondition` holds; finally `expect_reply` inserts a pending entry iff
`mem::size_of::<R::Reply>() != 0 || self.variant.checked()`. -/
def encodeRequest (r : Request) (extOpcode : Option Nat)
    (discardReply displayChecked : Bool) : EncodeResult :=
  let bytesF := encodeBytes r extOpcode
  { bytes := bytesF
    flags :=
      { expects_fds := r.replyExpectsFds
        discard_reply := discardReply
        checked := (r.replySize == 0) && displayChecked
        workaround := if glxBugCondition r bytesF then
            RequestWorkaround.glxFbconfigBug
          else RequestWorkaround.noneWorkaround }
    inserted := (r.replySize != 0) || displayChecked }

/-! ## Variant state and inbound dispatcher
(`src/display/variant/unsync.rs`, `src/display/variant/sync.rs`,
`src/display/input.rs`)

The `UnsyncVariant` keeps its tables in `hashbrown::HashMap`s behind a
`RefCell`; the `SyncVariant` keeps the same tables in `DashMap`s.  Both are
modelled as association lists where `insert` replaces any previous binding.
Two pieces of this repository are referenced but not under `src/`:

* `BreadError::from_x_error` (src/error.rs).  Modelled from the spec: a
  parsed server error (`XError{code, major, minor, sequence, resource}`) is
  a function of the 32-byte frame only, so the model keeps the whole frame
  in the `xError` constructor.
* `Event::from_bytes` / `Event::as_byte_slice` (src/event.rs).  Modelled
  from the spec: an undifferentiated event is a 32-byte buffer whose "raw
  byte view is always recoverable". -/

/-- Modelled from the spec: an undifferentiated event carrying its raw
bytes (src/event.rs is not part of the sources; spec §3 "Event"). -/
structure Event where
  bytes : List Nat
deriving DecidableEq, Repr

/-- The error taxonomy of spec §7 that the dispatcher code uses.
`xError bytes` is modelled from the spec: `BreadError::from_x_error`
(src/error.rs, not in the sources) parses the raw frame, which the model
keeps whole. -/
inductive BreadError where
  | ioError : BreadError
  | closedConnection : BreadError
  | noMatchingRequest : Nat → BreadError
  | xError : List Nat → BreadError
  | noXID : BreadError
deriving DecidableEq, Repr

/-- Source `PendingRequest` (src/display/mod.rs): sequence plus flags. -/
structure PendingRequest where
  request : Nat
  flags : PendingRequestFlags
deriving DecidableEq, Repr

/-- The mutable connection state shared by both display variants. -/
structure DisplayState where
  pendingRequests : List (Nat × PendingRequest)
  pendingErrors : List (Nat × BreadError)
  pendingReplies : List (Nat × (List Nat × List Nat))
  eventQueue : List Event
  specialQueues : List (Nat × List Event)
deriving DecidableEq, Repr

/-- Map lookup on the association-list model of the hash maps. -/
def alookup {α : Type} (l : List (Nat × α)) (k : Nat) : Option α :=
  (l.find? (fun p => p.1 == k)).map Prod.snd

/-- Map removal. -/
def aremove {α : Type} (l : List (Nat × α)) (k : Nat) : List (Nat × α) :=
  l.filter (fun p => p.1 != k)

/-- Map insertion (replacing any previous binding, as `HashMap::insert`
does). -/
def ainsert {α : Type} (l : List (Nat × α)) (k : Nat) (v : α) :
    List (Nat × α) :=
  (k, v) :: aremove l k

/-- Little-endian `u16` at `bytes[i..i+2]`
(`u16::from_ne_bytes([bytes[i], bytes[i+1]])`). -/
def u16At (bytes : List Nat) (i : Nat) : Nat :=
  bytes.getD i 0 + 256 * bytes.getD (i + 1) 0

/-- Little-endian `u32` at `bytes[i..i+4]` (in-range reads only; the
dispatcher uses it on 32-byte frames). -/
def u32At (bytes : List Nat) (i : Nat) : Nat :=
  bytes.getD i 0 + 256 * bytes.getD (i + 1) 0 +
    65536 * bytes.getD (i + 2) 0 + 16777216 * bytes.getD (i + 3) 0

/-- Little-endian `u32` store into `bytes[i..i+4]`
(`copy_from_slice(&v.to_ne_bytes())`). -/
def setU32 (bytes : List Nat) (i v : Nat) : List Nat :=
  (((bytes.set i (v % 256)).set (i + 1) (v / 256 % 256)).set (i + 2)
    (v / 65536 % 256)).set (i + 3) (v / 16777216 % 256)

/-- Source `Display::expect_reply` (src/display/input.rs lines 127-133): build a
`PendingRequest` and insert it under its sequence. -/
def expectReply (st : DisplayState) (req : Nat)
    (flags : PendingRequestFlags) : DisplayState :=
  { st with pendingRequests :=
      ainsert st.pendingRequests req ⟨req, flags⟩ }

/-- Source `Display::filter_into_special_event` followed by the fallback
`queue_event` (src/display/input.rs lines 80-88 and 136-153): XGE events
(byte 0 masked with `0x7F` equals 35) are routed to the special queue
registered under the resource id at bytes 12..16; every other event, and an
XGE event with no registered queue, goes to the main FIFO. -/
def dispatchEvent (st : DisplayState) (ev : Event) : DisplayState :=
  if ev.bytes.getD 0 0 &&& 127 ≠ 35 then
    { st with eventQueue := st.eventQueue ++ [ev] }
  else
    let eid := u32At ev.bytes 12
    match alookup st.specialQueues eid with
    | some q =>
      { st with specialQueues := ainsert st.specialQueues eid (q ++ [ev]) }
    | none => { st with eventQueue := st.eventQueue ++ [ev] }

/-- Source `Display::process_bytes` (src/display/input.rs lines 31-91). -/
def processBytes (st : DisplayState) (bytes : List Nat) (fds : List Nat) :
    Except BreadError DisplayState :=
  let sequence := u16At bytes 2
  if bytes.getD 0 0 = 1 then
    match alookup st.pendingRequests sequence with
    | none => Except.error (BreadError.noMatchingRequest sequence)
    | some pereq =>
      let st' :=
        { st with pendingRequests := aremove st.pendingRequests sequence }
      if pereq.flags.discard_reply then Except.ok st'
      else
        Except.ok
          { st' with
            pendingReplies := ainsert st'.pendingReplies sequence (bytes, fds) }
  else if bytes.getD 0 0 = 0 then
    if bytes.all (fun x => x = 0) then Except.error BreadError.closedConnection
    else
      let err := BreadError.xError bytes
      match alookup st.pendingRequests sequence with
      | some _ => Except.ok
          { st with
            pendingRequests := aremove st.pendingRequests sequence
            pendingErrors := ainsert st.pendingErrors sequence err }
      | none => Except.error err
  else
    Except.ok (dispatchEvent st (Event.mk bytes))

/-- Source `Display::fix_glx_workaround` (src/display/input.rs lines 96-123):
for a reply whose pending request is marked `GlxFbconfigBug`, overwrite the
length field at bytes 4..8 with `num_visuals * num_props * 2` (u32, from
bytes 8..12 and 12..16). -/
def fixGlxWorkaround (st : DisplayState) (bytes : List Nat) :
    Except BreadError (List Nat) :=
  if bytes.getD 0 0 = 1 then
    let sequence := u16At bytes 2
    match alookup st.pendingRequests sequence with
    | none => Except.error (BreadError.noMatchingRequest sequence)
    | some pereq =>
      if pereq.flags.workaround = RequestWorkaround.glxFbconfigBug then
        let visuals := u32At bytes 8
        let props := u32At bytes 12
        Except.ok (setU32 bytes 4 ((visuals * props * 2) % u32Mod))
      else Except.ok bytes
  else Except.ok bytes

/-- Source `additional_bytes` (src/display/input.rs lines 211-220): for replies and
XGE events, the `u32` at bytes 4..8 counts additional 4-byte units. -/
def additionalBytes (bytes : List Nat) : Option Nat :=
  if bytes.getD 0 0 = 1 ∨ bytes.getD 0 0 &&& 127 = 35 then
    some (u32At bytes 4)
  else none

/-- Source `Display::wait` (src/display/input.rs lines 159-180), with the
transport modelled as the stream of bytes the server has written: read
exactly 32 bytes, apply the GLX workaround pass, read `ab * 4` additional
bytes when the (possibly patched) frame calls for them, then dispatch via
`process_bytes`.  Returns the new state together with the unread remainder
of the stream; a short stream is the transport's `unexpected-eof` /
`Io` failure. -/
def waitModel (st : DisplayState) (stream : List Nat) (fds : List Nat) :
    Except BreadError (DisplayState × List Nat) :=
  if 32 ≤ stream.length then
    let bytes := stream.take 32
    let rest := stream.drop 32
    match fixGlxWorkaround st bytes with
    | Except.error e => Except.error e
    | Except.ok bytes =>
      match additionalBytes (bytes.take 8) with
      | some ab =>
        if ab ≠ 0 then
          if ab * 4 ≤ rest.length then
            (processBytes st (bytes ++ rest.take (ab * 4)) fds).map
              (fun st' => (st', rest.drop (ab * 4)))
          else Except.error BreadError.ioError
        else (processBytes st bytes fds).map (fun st' => (st', rest))
      | none => (processBytes st bytes fds).map (fun st' => (st', rest))
  else Except.error BreadError.ioError

/-- Source `UnsyncVariant::get_special_event` (src/display/variant/unsync.rs lines
98-106) and `SyncVariant::get_special_event` (sync.rs lines 87-90):
`special_event_queues.get_mut(&eid).unwrap().pop_front()`.  The outer
`none` models the `unwrap` panicking when no queue is registered under
`eid`; otherwise the front of the queue (if any) is popped. -/
def getSpecialEvent (st : DisplayState) (eid : Nat) :
    Option (Option Event × DisplayState) :=
  match alookup st.specialQueues eid with
  | none => none
  | some q => some (q.head?,
      { st with specialQueues := ainsert st.specialQueues eid q.tail })

/-! ## Request sequence counter
(`src/display/variant/unsync.rs` lines 238-243,
`src/display/variant/sync.rs` lines 187-191) -/

/-- Source `UnsyncVariant::next_request_number`: post-increment of a wrapping `u16`
`Cell`, returning the pre-increment value. -/
def UnsyncVariant.nextRequestNumber (c : Nat) : Nat × Nat :=
  (c, (c + 1) % u16Mod)

/-- Source `SyncVariant::next_request_number`:
`request_number.fetch_add(1, SeqCst)`, which also returns the
pre-increment value of the wrapping `u16` counter. -/
def SyncVariant.nextRequestNumber (c : Nat) : Nat × Nat :=
  (c, (c + 1) % u16Mod)

/-- Counter value after `n` calls, starting from the fresh display's
`request_number = 0`. -/
def requestCounterAfter : Nat → Nat
  | 0 => 0
  | n + 1 => (UnsyncVariant.nextRequestNumber (requestCounterAfter n)).2

/-- Sequence number returned by the `(n+1)`-th call (0-indexed). -/
def sequenceAt (n : Nat) : Nat :=
  (UnsyncVariant.nextRequestNumber (requestCounterAfter n)).1

/-- Concrete state for the C6 witness: one pending request at sequence 0
marked with the GLX workaround. -/
def glxStateW : DisplayState :=
  ⟨[(0, ⟨0, ⟨false, false, false, RequestWorkaround.glxFbconfigBug⟩⟩)],
    [], [], [], []⟩

/-- Concrete pending request of `glxStateW`. -/
def glxPrW : PendingRequest :=
  ⟨0, ⟨false, false, false, RequestWorkaround.glxFbconfigBug⟩⟩

/-- Concrete inbound stream for the C6 witness: a GLX reply at sequence 0
whose length field under-reports 7, with `num_visuals = 1`, `num_props = 1`
(patched length `1 * 1 * 2 = 2` units), followed by 8 payload bytes. -/
def glxStreamW : List Nat :=
  [1, 0, 0, 0, 7, 0, 0, 0, 1, 0, 0, 0, 1, 0, 0, 0] ++
    List.replicate 16 0 ++ List.replicate 8 9

/-! ## Helper lemmas and claim theorems -/

/-! ## Small `List.getD` toolkit

The Rust code indexes and mutates byte buffers in place; the embedding uses
`List.set` / `List.getD`, so we need a few index-juggling lemmas. -/

theorem getD_set_ne (l : List Nat) (i j a d : Nat) (h : i ≠ j) :
    (l.set i a).getD j d = l.getD j d := by
  simp [List.getD_eq_getElem?_getD, List.getElem?_set_ne h]

theorem getD_set_eq (l : List Nat) (i a d : Nat) (h : i < l.length) :
    (l.set i a).getD i d = a := by
  simp [List.getD_eq_getElem?_getD, List.getElem?_set_self',
    List.getElem?_eq_getElem h]

theorem getD_take (l : List Nat) (n i d : Nat) (h : i < n) :
    (l.take n).getD i d = l.getD i d := by
  simp [List.getD_eq_getElem?_getD, List.getElem?_take, h]

theorem getD_append_left (l r : List Nat) (i d : Nat) (h : i < l.length) :
    ((l ++ r).getD i d) = l.getD i d := by
  simp [List.getD_eq_getElem?_getD, List.getElem?_append, h]

theorem sync_next_eq_unsync_next (g : XidGeneratorUnsync) :
    XidGeneratorSync.next g = XidGeneratorUnsync.next g := rfl

/-! ### Bitwise helper lemmas -/

theorem lor_land_distrib (a b c : Nat) :
    (a ||| b) &&& c = (a &&& c) ||| (b &&& c) := by
  apply Nat.eq_of_testBit_eq
  intro i
  simp only [Nat.testBit_land, Nat.testBit_lor]
  cases a.testBit i <;> cases b.testBit i <;> cases c.testBit i <;> rfl

theorem land_lor_distrib (a b c : Nat) :
    a &&& (b ||| c) = (a &&& b) ||| (a &&& c) := by
  apply Nat.eq_of_testBit_eq
  intro i
  simp only [Nat.testBit_land, Nat.testBit_lor]
  cases a.testBit i <;> cases b.testBit i <;> cases c.testBit i <;> rfl

theorem lor_eq_right_of_land (a b : Nat) (h : a &&& b = a) : a ||| b = b := by
  apply Nat.eq_of_testBit_eq
  intro i
  have h' := congrArg (fun x => Nat.testBit x i) h
  simp only [Nat.testBit_land] at h'
  simp only [Nat.testBit_lor]
  cases ha : a.testBit i <;> cases hb : b.testBit i <;> simp_all

/-- For `k ≤ 2^t - 1`, all bits of `k` lie inside the contiguous mask. -/
theorem land_mask_self (k t : Nat) (hk : k ≤ 2 ^ t - 1) :
    k &&& (2 ^ t - 1) = k := by
  rw [Nat.and_pow_two_sub_one_eq_mod]
  have h2 : 0 < 2 ^ t := by positivity
  exact Nat.mod_eq_of_lt (by omega)

/-! ### Closed-form trace of the XID allocator with a contiguous mask -/

/-- With a contiguous mask `2^t - 1` (`1 ≤ t ≤ 32`), `inc` is the lowest set
bit of the mask, namely 1. -/
theorem new_contiguous_eq (base t : Nat) (ht : 1 ≤ t) (ht' : t ≤ 32) :
    XidGeneratorUnsync.new base (2 ^ t - 1) =
      ⟨0, 0, 1, base, 2 ^ t - 1⟩ := by
  have hp : 2 ≤ 2 ^ t := by
    calc 2 = 2 ^ 1 := rfl
    _ ≤ 2 ^ t := Nat.pow_le_pow_right (by norm_num) ht
  have h32 : (2 : Nat) ^ 32 = u32Mod := by norm_num [u32Mod]
  have hp' : 2 ^ t ≤ u32Mod := h32 ▸ Nat.pow_le_pow_right (by norm_num) ht'
  unfold XidGeneratorUnsync.new
  have hmod : (2 ^ t - 1) % u32Mod = 2 ^ t - 1 := by
    unfold u32Mod at hp' ⊢
    omega
  have hneg : wneg32 (2 ^ t - 1) = u32Mod - 2 ^ t + 1 := by
    unfold wneg32
    rw [hmod]
    unfold u32Mod at hp' ⊢
    omega
  have hdvd : 2 ^ t ∣ (u32Mod - 2 ^ t) := by
    rw [← h32]
    exact Nat.dvd_sub' (Nat.pow_dvd_pow 2 ht') dvd_rfl
  have hinc : (2 ^ t - 1) &&& wneg32 (2 ^ t - 1) = 1 := by
    rw [hneg, Nat.land_comm, Nat.and_pow_two_sub_one_eq_mod]
    obtain ⟨c, hc⟩ := hdvd
    have : u32Mod - 2 ^ t + 1 = 2 ^ t * c + 1 := by omega
    rw [this, Nat.mul_add_mod]
    exact Nat.mod_eq_of_lt (by omega)
  rw [hinc]

/-- First call on a freshly seeded generator with `inc = 1`: takes the seeding
branch, sets `max := mask`, `last := 1`, and issues `1 | base`. -/
theorem next_seed (base m : Nat) (hm : 1 ≤ m) :
    XidGeneratorUnsync.next ⟨0, 0, 1, base, m⟩ =
      (NextOutcome.issued (1 ||| base), ⟨1, m, 1, base, m⟩) := by
  unfold XidGeneratorUnsync.next wadd32 wsub32 u32Mod
  norm_num

/-- Intermediate call: `1 ≤ last = k < max = m` steps `last` to `k + 1`. -/
theorem next_mid (base m k : Nat) (hm' : m < u32Mod) (hk1 : 1 ≤ k)
    (hkm : k < m) :
    XidGeneratorUnsync.next ⟨k, m, 1, base, m⟩ =
      (NextOutcome.issued ((k + 1) ||| base), ⟨k + 1, m, 1, base, m⟩) := by
  unfold u32Mod at hm'
  unfold XidGeneratorUnsync.next wadd32 wsub32 u32Mod
  dsimp only
  rw [if_neg (by omega)]
  rw [Nat.mod_eq_of_lt (by omega : k + 1 < 4294967296)]

/-- Exhausted call: `last = max = m ≠ 0` returns `None` and leaves the state
unchanged. -/
theorem next_exhaust (base m : Nat) (hm : 1 ≤ m) (hm' : m < u32Mod) :
    XidGeneratorUnsync.next ⟨m, m, 1, base, m⟩ =
      (NextOutcome.exhausted, ⟨m, m, 1, base, m⟩) := by
  unfold u32Mod at hm'
  unfold XidGeneratorUnsync.next wadd32 wsub32 u32Mod
  dsimp only
  rw [if_pos (by omega)]
  rw [if_pos rfl]
  rw [if_neg (by omega)]

/-- State of the allocator after `k` calls, with `inc = 1`. -/
theorem iterate_closed (base m : Nat) (hm : 1 ≤ m) (hm' : m < u32Mod) :
    ∀ k, (⟨0, 0, 1, base, m⟩ : XidGeneratorUnsync).iterate k =
      if k = 0 then ⟨0, 0, 1, base, m⟩ else ⟨min k m, m, 1, base, m⟩ := by
  intro k
  induction k with
  | zero => rfl
  | succ k ih =>
    rw [XidGeneratorUnsync.iterate, ih]
    by_cases hk : k = 0
    · subst hk
      rw [if_pos rfl, if_neg (Nat.succ_ne_zero 0), next_seed base m hm]
      have : min 1 m = 1 := by omega
      rw [this]
    · rw [if_neg hk, if_neg (Nat.succ_ne_zero k)]
      by_cases hkm : k < m
      · have hmin : min k m = k := by omega
        have hmin' : min (k + 1) m = k + 1 := by omega
        rw [hmin, next_mid base m k hm' (by omega) hkm, hmin']
      · have hmin : min k m = m := by omega
        have hmin' : min (k + 1) m = m := by omega
        rw [hmin, next_exhaust base m hm hm', hmin']

/-- Value issued by the `(k+1)`-th call, with `inc = 1`: `(k+1) | base` while
`k < m`, `None` afterwards. -/
theorem valAt_closed (base m : Nat) (hm : 1 ≤ m) (hm' : m < u32Mod) (k : Nat) :
    (⟨0, 0, 1, base, m⟩ : XidGeneratorUnsync).valAt k =
      if k < m then NextOutcome.issued ((k + 1) ||| base)
      else NextOutcome.exhausted := by
  unfold XidGeneratorUnsync.valAt
  rw [iterate_closed base m hm hm' k]
  by_cases hk : k = 0
  · subst hk
    rw [if_pos rfl, if_pos (by omega), next_seed base m hm]
  · rw [if_neg hk]
    by_cases hkm : k < m
    · have hmin : min k m = k := by omega
      rw [hmin, if_pos hkm, next_mid base m k hm' (by omega) hkm]
    · have hmin : min k m = m := by omega
      rw [hmin, if_neg hkm, next_exhaust base m hm hm']

/-- C2 (counterexample): with `base = 0`, `mask = 6` (lowest set bit `inc = 2`),
the seeding branch of `next()` is never taken (`max` stays 0 while the
threshold underflows to `2^32 - 1`), so `last` walks 2, 4, 6, 8, …; the fourth
call issues 8, whose bit 3 lies outside `base ||| mask = 6`.  This falsifies
the claim that every issued XID has its bits confined to `base | mask`. -/
theorem xid_confinement_counterexample :
    (XidGeneratorUnsync.new 0 6).valAt 3 = NextOutcome.issued 8 ∧
      ¬((8 : Nat) ||| (0 ||| 6) = 0 ||| 6) := by
  constructor
  · rfl
  · decide

/-- C2 (amended): for a generator freshly constructed from a *contiguous*
mask `2^t - 1` (`1 ≤ t ≤ 32`) that is disjoint from `base` — the shape the
X11 setup actually grants —
(i) the `assert_eq!(last, max)` in `next()` never fires,
(ii) every issued XID has its bits confined to `base ||| mask`,
(iii) no two calls issue the same XID, and
(iv) once `next()` has returned `NONE` it returns `NONE` on every later call.
The thread-safe variant performs the identical algorithm
(`sync_next_eq_unsync_next`). -/
theorem xid_allocator_unique_confined (t base : Nat) (ht : 1 ≤ t)
    (ht' : t ≤ 32) (hb : base < u32Mod)
    (hdisj : base &&& (2 ^ t - 1) = 0) :
    (∀ n, (XidGeneratorUnsync.new base (2 ^ t - 1)).valAt n ≠
        NextOutcome.assertFail) ∧
    (∀ n x, (XidGeneratorUnsync.new base (2 ^ t - 1)).valAt n =
        NextOutcome.issued x →
        x ||| (base ||| (2 ^ t - 1)) = base ||| (2 ^ t - 1)) ∧
    (∀ m n x y, m < n →
        (XidGeneratorUnsync.new base (2 ^ t - 1)).valAt m =
          NextOutcome.issued x →
        (XidGeneratorUnsync.new base (2 ^ t - 1)).valAt n =
          NextOutcome.issued y → x ≠ y) ∧
    (∀ n, (XidGeneratorUnsync.new base (2 ^ t - 1)).valAt n =
        NextOutcome.exhausted →
        (XidGeneratorUnsync.new base (2 ^ t - 1)).valAt (n + 1) =
          NextOutcome.exhausted) := by
  have hp : 2 ≤ 2 ^ t := by
    calc 2 = 2 ^ 1 := rfl
    _ ≤ 2 ^ t := Nat.pow_le_pow_right (by norm_num) ht
  have h32 : (2 : Nat) ^ 32 = u32Mod := by norm_num [u32Mod]
  have hp' : 2 ^ t ≤ u32Mod := h32 ▸ Nat.pow_le_pow_right (by norm_num) ht'
  have hm : 1 ≤ 2 ^ t - 1 := by omega
  have hm' : 2 ^ t - 1 < u32Mod := by omega
  have hval := valAt_closed base (2 ^ t - 1) hm hm'
  rw [new_contiguous_eq base t ht ht']
  -- bits of any `k ≤ mask` are inside the mask, and disjoint from `base`
  have hsub : ∀ k, k ≤ 2 ^ t - 1 → (k ||| base) &&& (2 ^ t - 1) = k := by
    intro k hk
    rw [lor_land_distrib, land_mask_self k t hk, hdisj, Nat.or_zero]
  have hconf : ∀ k, k ≤ 2 ^ t - 1 →
      (k ||| base) ||| (base ||| (2 ^ t - 1)) = base ||| (2 ^ t - 1) := by
    intro k hk
    apply lor_eq_right_of_land
    rw [land_lor_distrib]
    have h1 : (k ||| base) &&& base = base := by
      apply Nat.eq_of_testBit_eq
      intro i
      simp only [Nat.testBit_land, Nat.testBit_lor]
      cases k.testBit i <;> cases base.testBit i <;> rfl
    have h2 : (k ||| base) &&& (2 ^ t - 1) = k := hsub k hk
    rw [h1, h2, Nat.lor_comm]
  refine ⟨?_, ?_, ?_, ?_⟩
  · intro n
    rw [hval n]
    by_cases h : n < 2 ^ t - 1 <;> simp [h]
  · intro n x hx
    rw [hval n] at hx
    by_cases h : n < 2 ^ t - 1
    · rw [if_pos h] at hx
      cases hx
      exact hconf (n + 1) (by omega)
    · rw [if_neg h] at hx
      cases hx
  · intro m n x y hmn hx hy
    rw [hval m] at hx
    rw [hval n] at hy
    by_cases h1 : m < 2 ^ t - 1
    · rw [if_pos h1] at hx
      by_cases h2 : n < 2 ^ t - 1
      · rw [if_pos h2] at hy
        cases hx
        cases hy
        intro hxy
        have e1 := hsub (m + 1) (by omega)
        have e2 := hsub (n + 1) (by omega)
        rw [hxy, e2] at e1
        omega
      · rw [if_neg h2] at hy
        cases hy
    · rw [if_neg h1] at hx
      cases hx
  · intro n hn
    rw [hval n] at hn
    rw [hval (n + 1)]
    by_cases h : n < 2 ^ t - 1
    · rw [if_pos h] at hn
      cases hn
    · rw [if_neg (by omega : ¬ n + 1 < 2 ^ t - 1)]

/-- C2 witness: `t = 2`, `base = 4` (mask `3`, disjoint from base).  The first
two calls issue `5 = 1 ||| 4` and `6 = 2 ||| 4`, and the amended theorem's
distinctness part separates them. -/
theorem xid_allocator_unique_confined_witness :
    (XidGeneratorUnsync.new 4 (2 ^ 2 - 1)).valAt 0 = NextOutcome.issued 5 ∧
    (XidGeneratorUnsync.new 4 (2 ^ 2 - 1)).valAt 1 = NextOutcome.issued 6 ∧
    (5 : Nat) ≠ 6 := by
  refine ⟨by rfl, by rfl, ?_⟩
  exact (xid_allocator_unique_confined 2 4 (by norm_num) (by norm_num)
      (by norm_num [u32Mod]) (by decide)).2.2.1 0 1 5 6 (by norm_num)
      (by rfl) (by rfl)

/-- C10: an XID generator whose `mask` is 0 (the state of `Default::default()`
and of any generator before `set_xid_base` installs a real mask) has
`inc = 0`; `next()` then takes the non-seeding branch forever, leaving
`last = 0` and returning `Some(0 | base) = Some(base)` on every call —
`Some(0)` for the `Default` generator — and `generate_xid` therefore hands
out the same XID repeatedly and never reports `NoXID` exhaustion. -/
theorem xid_default_mask_zero_always_base (base : Nat) :
    (∀ n, (XidGeneratorUnsync.new base 0).valAt n = NextOutcome.issued base) ∧
    (∀ n, (XidGeneratorUnsync.new 0 0).valAt n = NextOutcome.issued 0) ∧
    (∀ n, generateXidAt (XidGeneratorUnsync.new base 0) n =
        GenerateXidOutcome.ok base) := by
  have hnext : ∀ b, XidGeneratorUnsync.next (XidGeneratorUnsync.new b 0) =
      (NextOutcome.issued b, XidGeneratorUnsync.new b 0) := by
    intro b
    unfold XidGeneratorUnsync.new XidGeneratorUnsync.next wadd32 wsub32
      wneg32 u32Mod
    norm_num
  have hiter : ∀ b n, (XidGeneratorUnsync.new b 0).iterate n =
      XidGeneratorUnsync.new b 0 := by
    intro b n
    induction n with
    | zero => rfl
    | succ n ih => rw [XidGeneratorUnsync.iterate, ih, hnext]
  have hval : ∀ b n, (XidGeneratorUnsync.new b 0).valAt n =
      NextOutcome.issued b := by
    intro b n
    unfold XidGeneratorUnsync.valAt
    rw [hiter, hnext]
  exact ⟨fun n => hval base n, fun n => hval 0 n,
    fun n => by unfold generateXidAt; rw [hval]⟩

/-! ### Padding and patching lemmas -/

theorem padLen_mod_four (len : Nat) : padLen len % 4 = 0 := by
  unfold padLen
  by_cases h : len % 4 = 0
  · rw [if_pos h]; exact h
  · rw [if_neg h]; omega

theorem padLen_le (len : Nat) : len ≤ padLen len := by
  unfold padLen
  by_cases h : len % 4 = 0 <;> simp [h] <;> omega

theorem padLen_lt_add_four (len : Nat) : padLen len < len + 4 := by
  unfold padLen
  by_cases h : len % 4 = 0 <;> simp [h] <;> omega

theorem padLen_ge_four (len : Nat) (h : 0 < len) : 4 ≤ padLen len := by
  have := padLen_mod_four len
  have := padLen_le len
  omega

theorem padBytes_length (w : List Nat) (len : Nat) (h : len ≤ w.length) :
    padLen len ≤ (padBytes w len).length := by
  unfold padBytes padLen
  by_cases h4 : len % 4 = 0
  · rw [if_pos h4, if_pos h4]; omega
  · rw [if_neg h4, if_neg h4]
    rw [List.length_append, List.length_replicate]
    omega

theorem patchOpcode_length (w : List Nat) (opcode : Nat)
    (extOp : Option Nat) : (patchOpcode w opcode extOp).length = w.length := by
  unfold patchOpcode
  cases extOp <;> simp

theorem patchLength_length (w : List Nat) (xlen : Nat) :
    (patchLength w xlen).length = w.length := by
  unfold patchLength
  simp

theorem encodeBytes_length (r : Request) (extOp : Option Nat)
    (hwl : r.len ≤ r.wire.length) :
    (encodeBytes r extOp).length = padLen r.len := by
  unfold encodeBytes
  rw [List.length_take, patchLength_length, patchOpcode_length]
  have := padBytes_length r.wire r.len hwl
  omega

theorem encodeBytes_getD (r : Request) (extOp : Option Nat)
    (hwl : r.len ≤ r.wire.length) (hpos : 0 < r.len) :
    (encodeBytes r extOp).getD 2 0 = (padLen r.len / 4) % 256 ∧
    (encodeBytes r extOp).getD 3 0 = (padLen r.len / 4) / 256 % 256 ∧
    (extOp = none → (encodeBytes r extOp).getD 0 0 = r.opcode) ∧
    (∀ e, extOp = some e → (encodeBytes r extOp).getD 0 0 = e ∧
      (encodeBytes r extOp).getD 1 0 = r.opcode) := by
  have h4 : 4 ≤ padLen r.len := padLen_ge_four r.len hpos
  have hW : padLen r.len ≤ (padBytes r.wire r.len).length :=
    padBytes_length r.wire r.len hwl
  have hP : (patchOpcode (padBytes r.wire r.len) r.opcode extOp).length =
      (padBytes r.wire r.len).length := patchOpcode_length _ _ _
  unfold encodeBytes patchLength
  refine ⟨?_, ?_, ?_, ?_⟩
  · rw [getD_take _ _ _ _ (by omega), getD_set_ne _ _ _ _ _ (by omega),
      getD_set_eq _ _ _ _ (by omega)]
  · rw [getD_take _ _ _ _ (by omega), getD_set_eq _ _ _ _ (by simp; omega)]
  · intro he
    subst he
    unfold patchOpcode
    rw [getD_take _ _ _ _ (by omega), getD_set_ne _ _ _ _ _ (by omega),
      getD_set_ne _ _ _ _ _ (by omega), getD_set_eq _ _ _ _ (by omega)]
  · intro e he
    subst he
    unfold patchOpcode
    constructor
    · rw [getD_take _ _ _ _ (by omega), getD_set_ne _ _ _ _ _ (by omega),
        getD_set_ne _ _ _ _ _ (by omega), getD_set_ne _ _ _ _ _ (by omega),
        getD_set_eq _ _ _ _ (by omega)]
    · rw [getD_take _ _ _ _ (by omega), getD_set_ne _ _ _ _ _ (by omega),
        getD_set_ne _ _ _ _ _ (by omega), getD_set_eq _ _ _ _ (by simp; omega)]

/-- C1 (counterexample): a request whose `as_bytes` returns 0 (legal under
the generator contract) is encoded to an *empty* buffer — `truncate(0)`
erases the patched header — so "byte 0 equals `R::OPCODE`" fails for any
nonzero opcode, as does the stored-length property.  The claim is therefore
false without a positivity assumption on the serialized length. -/
theorem encode_request_framing_counterexample :
    (encodeRequest ⟨20, none, false, 0, 4, [9, 9, 9, 9], 0⟩
        none false false).bytes = [] ∧
    ¬((encodeRequest ⟨20, none, false, 0, 4, [9, 9, 9, 9], 0⟩
        none false false).bytes.getD 0 0 = 20) := by
  constructor
  · rfl
  · decide

/-- C1 (amended): for every well-formed request whose serializer reports a
*positive* length, and whose padded length fits the 16-bit length field
(`len ≤ 4 * 65535`), the encoded buffer satisfies the wire-framing
invariant: its length is a multiple of 4, the little-endian `u16` at bytes
2..4 times 4 equals the buffer's length, byte 0 is `R::OPCODE` for a core
request, and for an extension request byte 0 is the extension opcode with
`R::OPCODE` in byte 1. -/
theorem encode_request_framing (r : Request) (extOpcode : Option Nat)
    (d c : Bool) (hwf : r.WF) (hpos : 0 < r.len) (hsmall : r.len ≤ 262140) :
    (encodeRequest r extOpcode d c).bytes.length % 4 = 0 ∧
    ((encodeRequest r extOpcode d c).bytes.getD 2 0 +
      256 * (encodeRequest r extOpcode d c).bytes.getD 3 0) * 4 =
      (encodeRequest r extOpcode d c).bytes.length ∧
    (extOpcode = none →
      (encodeRequest r extOpcode d c).bytes.getD 0 0 = r.opcode) ∧
    (∀ e, extOpcode = some e →
      (encodeRequest r extOpcode d c).bytes.getD 0 0 = e ∧
      (encodeRequest r extOpcode d c).bytes.getD 1 0 = r.opcode) := by
  obtain ⟨hw, hls⟩ := hwf
  have hwl : r.len ≤ r.wire.length := by omega
  have hbytes : (encodeRequest r extOpcode d c).bytes = encodeBytes r extOpcode := rfl
  have hlen : (encodeBytes r extOpcode).length = padLen r.len :=
    encodeBytes_length r extOpcode hwl
  have hmod4 : padLen r.len % 4 = 0 := padLen_mod_four r.len
  have hub : padLen r.len < r.len + 4 := padLen_lt_add_four r.len
  have hgd := encodeBytes_getD r extOpcode hwl hpos
  rw [hbytes, hlen]
  refine ⟨hmod4, ?_, hgd.2.2.1, hgd.2.2.2⟩
  rw [hgd.1, hgd.2.1]
  have hx : padLen r.len / 4 < 65536 := by omega
  omega

/-- C1 witness: spec scenario 1 — opcode 20, no extension, empty body padded
to size 4 (`as_bytes` returns 4).  The wire bytes are `[20, 0, 1, 0]`. -/
theorem encode_request_framing_witness :
    (encodeRequest ⟨20, none, false, 32, 4, [0, 0, 0, 0], 4⟩
        none false false).bytes.length % 4 = 0 ∧
    ((encodeRequest ⟨20, none, false, 32, 4, [0, 0, 0, 0], 4⟩
        none false false).bytes.getD 2 0 +
      256 * (encodeRequest ⟨20, none, false, 32, 4, [0, 0, 0, 0], 4⟩
        none false false).bytes.getD 3 0) * 4 =
      (encodeRequest ⟨20, none, false, 32, 4, [0, 0, 0, 0], 4⟩
        none false false).bytes.length ∧
    (encodeRequest ⟨20, none, false, 32, 4, [0, 0, 0, 0], 4⟩
        none false false).bytes.getD 0 0 = 20 := by
  have h := encode_request_framing ⟨20, none, false, 32, 4, [0, 0, 0, 0], 4⟩
    none false false (by constructor <;> decide) (by decide) (by decide)
  exact ⟨h.1, h.2.1, h.2.2.1 rfl⟩

/-- C3: the `checked` flag of the pending-request entry built by
`encode_request` is exactly `mem::size_of::<R::Reply>() == 0 &&
display.checked()`, and `expect_reply` inserts a `PendingRequest` entry iff
`mem::size_of::<R::Reply>() != 0 || display.checked()`. -/
theorem encode_request_checked_flag_and_insertion (r : Request)
    (extOp : Option Nat) (d c : Bool) :
    (encodeRequest r extOp d c).flags.checked = ((r.replySize == 0) && c) ∧
    ((encodeRequest r extOp d c).inserted = true ↔
      0 < r.replySize ∨ c = true) := by
  refine ⟨rfl, ?_⟩
  show ((r.replySize != 0) || c) = true ↔ 0 < r.replySize ∨ c = true
  simp [Nat.pos_iff_ne_zero]

/-- C5: `encode_request` marks the pending request with the
`GlxFbconfigBug` workaround iff the request's extension is `"GLX"` and
either its opcode is 21, or its opcode is 17 and the `u32` at bytes 32..36
of the encoded request is `0x10004`; in every other case the workaround is
`none`. -/
theorem encode_request_glx_workaround_iff (r : Request) (extOp : Option Nat)
    (d c : Bool) :
    ((encodeRequest r extOp d c).flags.workaround =
        RequestWorkaround.glxFbconfigBug ↔
      r.extension = some "GLX" ∧ (r.opcode = 21 ∨ (r.opcode = 17 ∧
        readU32LE (encodeRequest r extOp d c).bytes 32 = some 0x10004))) ∧
    (¬(r.extension = some "GLX" ∧ (r.opcode = 21 ∨ (r.opcode = 17 ∧
        readU32LE (encodeRequest r extOp d c).bytes 32 = some 0x10004))) →
      (encodeRequest r extOp d c).flags.workaround =
        RequestWorkaround.noneWorkaround) := by
  have hb : (encodeRequest r extOp d c).bytes = encodeBytes r extOp := rfl
  have hw : (encodeRequest r extOp d c).flags.workaround =
      if glxBugCondition r (encodeBytes r extOp) then
        RequestWorkaround.glxFbconfigBug
      else RequestWorkaround.noneWorkaround := rfl
  rw [hb, hw]
  unfold glxBugCondition
  by_cases h : r.extension = some "GLX" ∧ (r.opcode = 21 ∨ (r.opcode = 17 ∧
      readU32LE (encodeBytes r extOp) 32 = some 0x10004))
  · rw [if_pos h]
    exact ⟨iff_of_true rfl h, fun hn => absurd h hn⟩
  · rw [if_neg h]
    exact ⟨iff_of_false (by decide) h, fun _ => rfl⟩

/-- C5 witness: a GLX request with opcode 21 is marked with the workaround
unconditionally. -/
theorem encode_request_glx_workaround_iff_witness :
    (encodeRequest ⟨21, some "GLX", false, 32, 8, [0, 0, 0, 0, 0, 0, 0, 0], 8⟩
        (some 145) false false).flags.workaround =
      RequestWorkaround.glxFbconfigBug :=
  (encode_request_glx_workaround_iff
      ⟨21, some "GLX", false, 32, 8, [0, 0, 0, 0, 0, 0, 0, 0], 8⟩
      (some 145) false false).1.mpr ⟨rfl, Or.inl rfl⟩

/-- C8 (counterexample): a request whose `as_bytes` returns 0 encodes to the
*empty* buffer, not to a 4-byte header unit with length field 1: the claim's
buffer-length and length-field properties both fail. -/
theorem encode_zero_length_counterexample :
    ¬((encodeRequest ⟨1, none, false, 0, 32, List.replicate 32 0, 0⟩
        none false false).bytes.length = 4 ∧
      (encodeRequest ⟨1, none, false, 0, 32, List.replicate 32 0, 0⟩
        none false false).bytes.getD 2 0 +
        256 * (encodeRequest ⟨1, none, false, 0, 32, List.replicate 32 0, 0⟩
          none false false).bytes.getD 3 0 = 1) := by
  decide

/-- C8 (amended): for a request whose serializer `as_bytes` returns 0, the
final `bytes.truncate(len)` truncates to length 0, so the encoder emits an
*empty* byte buffer — no header unit at all. -/
theorem encode_zero_length_empty (r : Request) (extOp : Option Nat)
    (d c : Bool) (hlen0 : r.len = 0) :
    (encodeRequest r extOp d c).bytes = [] := by
  have hp : padLen r.len = 0 := by rw [hlen0]; rfl
  show encodeBytes r extOp = []
  unfold encodeBytes
  rw [hp]
  exact List.take_zero _

/-- C8 witness: a concrete request of size 32 whose `as_bytes` returns 0. -/
theorem encode_zero_length_empty_witness :
    (encodeRequest ⟨1, none, false, 0, 32, List.replicate 32 0, 0⟩
        none true true).bytes = [] :=
  encode_zero_length_empty ⟨1, none, false, 0, 32, List.replicate 32 0, 0⟩
    none true true rfl

theorem requestCounterAfter_eq (n : Nat) :
    requestCounterAfter n = n % u16Mod := by
  induction n with
  | zero => rfl
  | succ n ih =>
    show (UnsyncVariant.nextRequestNumber (requestCounterAfter n)).2 = _
    rw [ih]
    unfold UnsyncVariant.nextRequestNumber u16Mod
    dsimp only
    omega

/-- C7: both variants' `next_request_number` are the same post-increment
wrapping `u16` counter; starting from a fresh display the `(n+1)`-th call
(0-indexed `n`) returns `n mod 2^16`, and consecutive calls return values
differing by exactly 1 modulo `2^16`. -/
theorem next_request_number_monotone :
    (∀ c, SyncVariant.nextRequestNumber c =
      UnsyncVariant.nextRequestNumber c) ∧
    (∀ n, sequenceAt n = n % u16Mod) ∧
    (∀ n, (sequenceAt (n + 1) + u16Mod - sequenceAt n) % u16Mod = 1) := by
  have hseq : ∀ n, sequenceAt n = n % u16Mod := by
    intro n
    show (UnsyncVariant.nextRequestNumber (requestCounterAfter n)).1 = _
    unfold UnsyncVariant.nextRequestNumber
    exact requestCounterAfter_eq n
  refine ⟨fun _ => rfl, hseq, fun n => ?_⟩
  rw [hseq, hseq]
  unfold u16Mod
  omega

/-- C9 (counterexample): on a state with no registered special queue,
`get_special_event 5` hits `special_event_queues.get_mut(&5).unwrap()` on a
`None` and panics (the model's outer `none`); it neither returns an event
nor reports a recoverable error — the `DisplayVariant` signature has no
error channel at all — falsifying "reports an error rather than
succeeding". -/
theorem get_special_event_counterexample :
    getSpecialEvent ⟨[], [], [], [], []⟩ 5 = none := rfl

/-- C9 (amended): `get_special_event(xid)` is non-blocking — a pure queue
lookup and `pop_front` with no transport interaction — and pops the front
of the special queue registered for `xid`; when no special queue is
registered for `xid` it *panics* (`unwrap` of a missing key) rather than
reporting an error.  Both variants execute the identical expression. -/
theorem get_special_event_amended (st : DisplayState) (eid : Nat) :
    (alookup st.specialQueues eid = none → getSpecialEvent st eid = none) ∧
    (∀ q, alookup st.specialQueues eid = some q →
      getSpecialEvent st eid = some (q.head?,
        { st with specialQueues := ainsert st.specialQueues eid q.tail })) := by
  constructor
  · intro h
    unfold getSpecialEvent
    rw [h]
  · intro q h
    unfold getSpecialEvent
    rw [h]

/-- C9 witness: a state with one registered queue for id 7 holding one
event; `get_special_event 7` pops it. -/
theorem get_special_event_amended_witness :
    getSpecialEvent ⟨[], [], [], [], [(7, [Event.mk [1]])]⟩ 7 =
      some (some (Event.mk [1]),
        ⟨[], [], [], [], ainsert [(7, [Event.mk [1]])] 7 []⟩) :=
  (get_special_event_amended ⟨[], [], [], [], [(7, [Event.mk [1]])]⟩ 7).2
    [Event.mk [1]] (by decide)

/-- Lemma: `wait` on a 32-byte frame that is neither a reply nor an XGE event
forwards the result of `process_bytes` and consumes exactly 32 bytes. -/
theorem waitModel_no_extra (st : DisplayState) (bytes : List Nat)
    (fds : List Nat) (hlen : bytes.length = 32)
    (hne : bytes.getD 0 0 ≠ 1) (hne35 : bytes.getD 0 0 &&& 127 ≠ 35) :
    waitModel st bytes fds =
      (processBytes st bytes fds).map (fun st' => (st', ([] : List Nat))) := by
  unfold waitModel
  rw [if_pos (by omega)]
  have htake : bytes.take 32 = bytes := by
    rw [← hlen]
    exact List.take_length bytes
  have hdrop : bytes.drop 32 = [] := by
    rw [← hlen]
    exact List.drop_length bytes
  rw [htake, hdrop]
  unfold fixGlxWorkaround
  dsimp only
  rw [if_neg hne]
  show (match additionalBytes (bytes.take 8) with
    | some ab => _
    | none => (processBytes st bytes fds).map fun st' => (st', [])) = _
  unfold additionalBytes
  rw [getD_take _ _ _ _ (by norm_num),
    if_neg (not_or.mpr ⟨hne, hne35⟩)]

/-- C4: when `process_bytes` receives an error frame (byte 0 == 0, not
all-zero) whose sequence matches a pending request, the pending request is
removed, the parsed error is moved into the pending-error table and the
call returns `Ok`; when no pending request matches, the parsed server error
is returned directly as the result of the current `wait`.  (`wait` forwards
the `process_bytes` result: error frames trigger neither the GLX pass nor
an additional-bytes read.) -/
theorem error_frame_routing (st : DisplayState) (bytes : List Nat)
    (fds : List Nat) (hlen : bytes.length = 32)
    (h0 : bytes.getD 0 0 = 0) (hnz : ¬ bytes.all (fun x => x = 0)) :
    ((∃ pr, alookup st.pendingRequests (u16At bytes 2) = some pr) →
      processBytes st bytes fds = Except.ok
        { st with
          pendingRequests := aremove st.pendingRequests (u16At bytes 2)
          pendingErrors := ainsert st.pendingErrors (u16At bytes 2)
            (BreadError.xError bytes) } ∧
      waitModel st bytes fds = Except.ok
        ({ st with
            pendingRequests := aremove st.pendingRequests (u16At bytes 2)
            pendingErrors := ainsert st.pendingErrors (u16At bytes 2)
              (BreadError.xError bytes) }, [])) ∧
    (alookup st.pendingRequests (u16At bytes 2) = none →
      processBytes st bytes fds = Except.error (BreadError.xError bytes) ∧
      waitModel st bytes fds = Except.error (BreadError.xError bytes)) := by
  have h1 : ¬ bytes.getD 0 0 = 1 := by omega
  have h35 : bytes.getD 0 0 &&& 127 ≠ 35 := by
    rw [h0]
    decide
  have hwait := waitModel_no_extra st bytes fds hlen h1 h35
  constructor
  · rintro ⟨pr, hpr⟩
    have hproc : processBytes st bytes fds = Except.ok
        { st with
          pendingRequests := aremove st.pendingRequests (u16At bytes 2)
          pendingErrors := ainsert st.pendingErrors (u16At bytes 2)
            (BreadError.xError bytes) } := by
      unfold processBytes
      rw [if_neg h1, if_pos h0, if_neg hnz, hpr]
    exact ⟨hproc, by rw [hwait, hproc]; rfl⟩
  · intro hnone
    have hproc : processBytes st bytes fds =
        Except.error (BreadError.xError bytes) := by
      unfold processBytes
      rw [if_neg h1, if_pos h0, if_neg hnz, hnone]
    exact ⟨hproc, by rw [hwait, hproc]; rfl⟩

/-- C4 witness: spec scenario 4 on both sides.  A pending request at
sequence 5 receives an error frame for sequence 5 (error moved into the
pending-error table, `wait` returns ok); an error frame for sequence 999
with no matching pending request is returned directly. -/
theorem error_frame_routing_witness :
    (processBytes
        ⟨[(5, ⟨5, ⟨false, false, false, RequestWorkaround.noneWorkaround⟩⟩)],
          [], [], [], []⟩
        ([0, 3, 5, 0] ++ List.replicate 28 0) [] = Except.ok
      { (⟨[(5, ⟨5, ⟨false, false, false,
            RequestWorkaround.noneWorkaround⟩⟩)], [], [], [], []⟩ :
          DisplayState) with
        pendingRequests := aremove
          [(5, ⟨5, ⟨false, false, false, RequestWorkaround.noneWorkaround⟩⟩)] 5
        pendingErrors := ainsert [] 5
          (BreadError.xError ([0, 3, 5, 0] ++ List.replicate 28 0)) }) ∧
    (processBytes ⟨[], [], [], [], []⟩
        ([0, 3, 231, 3] ++ List.replicate 28 0) [] =
      Except.error (BreadError.xError ([0, 3, 231, 3] ++ List.replicate 28 0))) := by
  constructor
  · exact ((error_frame_routing
      ⟨[(5, ⟨5, ⟨false, false, false, RequestWorkaround.noneWorkaround⟩⟩)],
        [], [], [], []⟩
      ([0, 3, 5, 0] ++ List.replicate 28 0) [] (by decide) (by decide)
      (by decide)).1 ⟨⟨5, ⟨false, false, false,
        RequestWorkaround.noneWorkaround⟩⟩, by decide⟩).1
  · exact ((error_frame_routing ⟨[], [], [], [], []⟩
      ([0, 3, 231, 3] ++ List.replicate 28 0) [] (by decide) (by decide)
      (by decide)).2 (by decide)).1

theorem setU32_length (b : List Nat) (i v : Nat) :
    (setU32 b i v).length = b.length := by
  unfold setU32
  simp

theorem u32At_take (b : List Nat) (n i : Nat) (h : i + 4 ≤ n) :
    u32At (b.take n) i = u32At b i := by
  unfold u32At
  rw [getD_take _ _ _ _ (by omega), getD_take _ _ _ _ (by omega),
    getD_take _ _ _ _ (by omega), getD_take _ _ _ _ (by omega)]

theorem getD_setU32_ne (b : List Nat) (i v j d : Nat) (h1 : j ≠ i)
    (h2 : j ≠ i + 1) (h3 : j ≠ i + 2) (h4 : j ≠ i + 3) :
    (setU32 b i v).getD j d = b.getD j d := by
  unfold setU32
  rw [getD_set_ne _ _ _ _ _ (by omega), getD_set_ne _ _ _ _ _ (by omega),
    getD_set_ne _ _ _ _ _ (by omega), getD_set_ne _ _ _ _ _ (by omega)]

theorem u32At_setU32 (b : List Nat) (i v : Nat) (hv : v < u32Mod)
    (hlen : i + 4 ≤ b.length) :
    u32At (setU32 b i v) i = v := by
  unfold u32Mod at hv
  unfold u32At setU32
  rw [getD_set_ne _ _ _ _ _ (by omega), getD_set_ne _ _ _ _ _ (by omega),
    getD_set_ne _ _ _ _ _ (by omega), getD_set_eq _ _ _ _ (by omega)]
  rw [getD_set_ne _ _ _ _ _ (by omega), getD_set_ne _ _ _ _ _ (by omega),
    getD_set_eq _ _ _ _ (by simp; omega)]
  rw [getD_set_ne _ _ _ _ _ (by omega),
    getD_set_eq _ _ _ _ (by simp; omega)]
  rw [getD_set_eq _ _ _ _ (by simp; omega)]
  omega

/-- A reply frame whose sequence has a pending entry is dispatched
successfully (stored or discarded). -/
theorem processBytes_reply_ok (st : DisplayState) (B fds : List Nat)
    (pr : PendingRequest) (h0 : B.getD 0 0 = 1)
    (hpr : alookup st.pendingRequests (u16At B 2) = some pr) :
    ∃ st', processBytes st B fds = Except.ok st' := by
  unfold processBytes
  dsimp only
  rw [if_pos h0, hpr]
  dsimp only
  by_cases hd : pr.flags.discard_reply
  · rw [if_pos hd]
    exact ⟨_, rfl⟩
  · rw [if_neg hd]
    exact ⟨_, rfl⟩

/-- C6: when the dispatcher reads a reply (byte 0 == 1) whose pending
request carries `workaround == GlxFbconfigBug`, the workaround pass
overwrites the reply's bytes 4..8 with the `u32` product
`num_visuals * num_props * 2` (`num_visuals` from bytes 8..12, `num_props`
from bytes 12..16) — and this happens *before* the additional-bytes length
at bytes 4..8 is read, so the extra payload fetched from the transport is
exactly `4 *` the patched value, not the server's original length field. -/
theorem glx_reply_patch_before_read (st : DisplayState)
    (stream fds : List Nat) (pr : PendingRequest) (h32 : 32 ≤ stream.length)
    (h0 : (stream.take 32).getD 0 0 = 1)
    (hpr : alookup st.pendingRequests (u16At (stream.take 32) 2) = some pr)
    (hglx : pr.flags.workaround = RequestWorkaround.glxFbconfigBug)
    (hrest : ((u32At (stream.take 32) 8 * u32At (stream.take 32) 12 * 2) %
        u32Mod) * 4 ≤ (stream.drop 32).length) :
    fixGlxWorkaround st (stream.take 32) = Except.ok
      (setU32 (stream.take 32) 4
        ((u32At (stream.take 32) 8 * u32At (stream.take 32) 12 * 2) %
          u32Mod)) ∧
    u32At (setU32 (stream.take 32) 4
        ((u32At (stream.take 32) 8 * u32At (stream.take 32) 12 * 2) %
          u32Mod)) 4 =
      (u32At (stream.take 32) 8 * u32At (stream.take 32) 12 * 2) % u32Mod ∧
    (∃ st', waitModel st stream fds = Except.ok
      (st', (stream.drop 32).drop
        (((u32At (stream.take 32) 8 * u32At (stream.take 32) 12 * 2) %
          u32Mod) * 4))) := by
  have hBlen : (stream.take 32).length = 32 := by
    rw [List.length_take]
    omega
  have hLlt : (u32At (stream.take 32) 8 * u32At (stream.take 32) 12 * 2) %
      u32Mod < u32Mod := Nat.mod_lt _ (by unfold u32Mod; norm_num)
  have ha : fixGlxWorkaround st (stream.take 32) = Except.ok
      (setU32 (stream.take 32) 4
        ((u32At (stream.take 32) 8 * u32At (stream.take 32) 12 * 2) %
          u32Mod)) := by
    unfold fixGlxWorkaround
    dsimp only
    rw [if_pos h0, hpr]
    dsimp only
    rw [if_pos hglx]
  have hb : u32At (setU32 (stream.take 32) 4
      ((u32At (stream.take 32) 8 * u32At (stream.take 32) 12 * 2) %
        u32Mod)) 4 =
      (u32At (stream.take 32) 8 * u32At (stream.take 32) 12 * 2) % u32Mod :=
    u32At_setU32 _ _ _ hLlt (by omega)
  have hget0 : (setU32 (stream.take 32) 4
      ((u32At (stream.take 32) 8 * u32At (stream.take 32) 12 * 2) %
        u32Mod)).getD 0 0 = 1 := by
    rw [getD_setU32_ne _ _ _ _ _ (by omega) (by omega) (by omega) (by omega)]
    exact h0
  have hseq : u16At (setU32 (stream.take 32) 4
      ((u32At (stream.take 32) 8 * u32At (stream.take 32) 12 * 2) %
        u32Mod)) 2 = u16At (stream.take 32) 2 := by
    unfold u16At
    rw [getD_setU32_ne _ _ _ _ _ (by omega) (by omega) (by omega) (by omega),
      getD_setU32_ne _ _ _ _ _ (by omega) (by omega) (by omega) (by omega)]
  refine ⟨ha, hb, ?_⟩
  unfold waitModel
  rw [if_pos h32]
  dsimp only
  rw [ha]
  dsimp only
  have htk8 : (additionalBytes ((setU32 (stream.take 32) 4
      ((u32At (stream.take 32) 8 * u32At (stream.take 32) 12 * 2) %
        u32Mod)).take 8)) = some
      ((u32At (stream.take 32) 8 * u32At (stream.take 32) 12 * 2) %
        u32Mod) := by
    unfold additionalBytes
    rw [getD_take _ _ _ _ (by norm_num), hget0]
    rw [if_pos (Or.inl rfl)]
    rw [u32At_take _ 8 4 (by norm_num), hb]
  rw [htk8]
  dsimp only
  by_cases hL0 : (u32At (stream.take 32) 8 * u32At (stream.take 32) 12 * 2) %
      u32Mod = 0
  · rw [hL0] at hget0 hseq ⊢
    rw [if_neg (by omega)]
    obtain ⟨st', hst'⟩ := processBytes_reply_ok st
      (setU32 (stream.take 32) 4 0) fds pr hget0 (by rw [hseq]; exact hpr)
    rw [hst']
    exact ⟨st', by simp [Except.map]⟩
  · rw [if_pos hL0, if_pos hrest]
    have happlen : 0 < (setU32 (stream.take 32) 4
        ((u32At (stream.take 32) 8 * u32At (stream.take 32) 12 * 2) %
          u32Mod)).length := by
      rw [setU32_length, hBlen]
      norm_num
    have hget0app : ((setU32 (stream.take 32) 4
        ((u32At (stream.take 32) 8 * u32At (stream.take 32) 12 * 2) %
          u32Mod)) ++ (stream.drop 32).take
          (((u32At (stream.take 32) 8 * u32At (stream.take 32) 12 * 2) %
            u32Mod) * 4)).getD 0 0 = 1 := by
      rw [getD_append_left _ _ _ _ happlen]
      exact hget0
    have hseqapp : u16At ((setU32 (stream.take 32) 4
        ((u32At (stream.take 32) 8 * u32At (stream.take 32) 12 * 2) %
          u32Mod)) ++ (stream.drop 32).take
          (((u32At (stream.take 32) 8 * u32At (stream.take 32) 12 * 2) %
            u32Mod) * 4)) 2 = u16At (stream.take 32) 2 := by
      unfold u16At
      rw [getD_append_left _ _ _ _ (by rw [setU32_length, hBlen]; norm_num),
        getD_append_left _ _ _ _ (by rw [setU32_length, hBlen]; norm_num)]
      rw [show (2 : Nat) + 1 = 3 by rfl]
      unfold u16At at hseq
      exact hseq
    obtain ⟨st', hst'⟩ := processBytes_reply_ok st _ fds pr hget0app
      (by rw [hseqapp]; exact hpr)
    rw [hst']
    exact ⟨st', rfl⟩

/-- C6 witness: spec scenario 3 in concrete form — the length field is
patched to 2 units and `wait` fetches exactly `2 * 4 = 8` extra bytes,
consuming the whole 40-byte stream. -/
theorem glx_reply_patch_before_read_witness :
    fixGlxWorkaround glxStateW (glxStreamW.take 32) = Except.ok
      (setU32 (glxStreamW.take 32) 4
        ((u32At (glxStreamW.take 32) 8 * u32At (glxStreamW.take 32) 12 * 2) %
          u32Mod)) ∧
    u32At (setU32 (glxStreamW.take 32) 4
        ((u32At (glxStreamW.take 32) 8 * u32At (glxStreamW.take 32) 12 * 2) %
          u32Mod)) 4 =
      (u32At (glxStreamW.take 32) 8 * u32At (glxStreamW.take 32) 12 * 2) %
        u32Mod ∧
    (∃ st', waitModel glxStateW glxStreamW [] = Except.ok
      (st', (glxStreamW.drop 32).drop
        (((u32At (glxStreamW.take 32) 8 * u32At (glxStreamW.take 32) 12 * 2) %
          u32Mod) * 4))) :=
  glx_reply_patch_before_read glxStateW glxStreamW [] glxPrW (by decide)
    (by decide) (by decide) (by decide) (by decide)

end BreadX
